import Mathlib

/-!
# viddler_api: request encoding, response decoding and session state

A shallow embedding of `viddler_api.go` (package `viddler_api`) together with the
library calls it makes (`net/url`, `net/http`, `go-simplejson`, `log`, `errors`).

Modelling conventions
* A Go `string` is a Lean `String`.  Byte-level library code (`url.QueryEscape`) works on the
  UTF-8 encoding of the string; `sort.Strings` compares bytes, which on UTF-8 text is the
  code point order used here.
* A Go `error` is an `Option String`: `none` is `nil`, `some m` is an error whose
  `Error()` is `m`.
* A Go `map[string]string` is the list of its entries in the order in which `range`
  happens to visit them; the keys of a map are pairwise distinct (`(P.map Prod.fst).Nodup`).
* `url.Values` (`map[string][]string`) is an association list with one entry per key.
* The network is a `World`: a fixed function from requests to what the HTTP call returns,
  and the log of the requests issued so far.
* `log.Fatal` and a run-time panic end the process; they are outcomes of their own.
-/

namespace viddler_api

/-! ## net/url -/

/-- Go `shouldEscape(c, encodeQueryComponent)`: only the unreserved bytes
(letters, digits, `-`, `_`, `.`, `~`) are left alone. -/
def shouldEscape (c : Nat) : Bool :=
  if (97 ≤ c ∧ c ≤ 122) ∨ (65 ≤ c ∧ c ≤ 90) ∨ (48 ≤ c ∧ c ≤ 57) then false
  else if c = 45 ∨ c = 95 ∨ c = 46 ∨ c = 126 then false
  else true

/-- Go `upperhex`. -/
def upperhex : List Char := "0123456789ABCDEF".toList

/-- One byte of Go `escape(s, encodeQueryComponent)`: a space becomes `+`, a byte that
must be escaped becomes `%XX`, any other byte is copied. -/
def escapeByte (c : Nat) : List Char :=
  if c = 32 then ['+']
  else if shouldEscape c then ['%', upperhex.getD (c / 16) '0', upperhex.getD (c % 16) '0']
  else [Char.ofNat c]

/-- Go `url.QueryEscape`. -/
def QueryEscape (s : String) : String :=
  String.mk ((s.toList.flatMap String.utf8EncodeChar).flatMap (fun b => escapeByte b.toNat))

/-- Go `url.Values`, a `map[string][]string`: one entry per key. -/
abbrev Values := List (String × List String)

/-- Go index expression `v[key]`: the slice stored under `key`, empty when the key is absent. -/
def Values.slice : Values → String → List String
  | [], _ => []
  | (k, vs) :: rest, key => if k = key then vs else Values.slice rest key

/-- Go `Values.Add`: `v[key] = append(v[key], value)`. -/
def Values.Add : Values → String → String → Values
  | [], key, value => [(key, [value])]
  | (k, vs) :: rest, key, value =>
    if k = key then (k, vs ++ [value]) :: rest else (k, vs) :: Values.Add rest key value

/-- The keys of the map. -/
def Values.keys (v : Values) : List String := v.map Prod.fst

/-- The order of `sort.Strings`. -/
def strLE (a b : String) : Prop := a.toList ≤ b.toList

instance : DecidableRel strLE := fun a b => inferInstanceAs (Decidable (a.toList ≤ b.toList))

/-- Body of the inner loop of `Values.Encode`: write `&` unless the buffer is empty, then
the escaped key, `=`, and the escaped value. -/
def writePair (keyEscaped : String) (buf : String) (v : String) : String :=
  let buf := if 0 < buf.length then buf ++ "&" else buf
  buf ++ keyEscaped ++ "=" ++ QueryEscape v

/-- Body of the outer loop of `Values.Encode`: all values of one key. -/
def writeKey (v : Values) (buf : String) (k : String) : String :=
  let vs := Values.slice v k
  let keyEscaped := QueryEscape k
  vs.foldl (writePair keyEscaped) buf

/-- Go `Values.Encode`: the pairs in "URL encoded" form, sorted by key. -/
def Values.Encode (v : Values) : String :=
  let keys := List.insertionSort strLE (Values.keys v)
  keys.foldl (writeKey v) ""

/-! ## net/http -/

/-- What the client puts on the wire. -/
structure Request where
  Method : String
  URL : String
  ContentType : String
  Body : String

/-- Go `http.Response`, as far as the client reads it: `Body` is what `ioutil.ReadAll`
gives for the body, a read error or the whole content. -/
structure Response where
  Body : Except String String

/-- The two results of `http.Get` and `http.PostForm`: a response pointer (`none` is `nil`)
and an error. -/
structure HttpResult where
  res : Option Response
  err : Option String

/-- The network: a fixed server, and the requests issued so far. -/
structure World where
  server : Request → HttpResult
  sent : List Request

/-- Go `http.Get(url)`. -/
def http_Get (w : World) (url : String) : HttpResult × World :=
  let req : Request := ⟨"GET", url, "", ""⟩
  (w.server req, { w with sent := w.sent ++ [req] })

/-- Go `http.PostForm(url, data)`: a POST whose body is `data.Encode()`. -/
def http_PostForm (w : World) (url : String) (data : Values) : HttpResult × World :=
  let req : Request := ⟨"POST", url, "application/x-www-form-urlencoded", Values.Encode data⟩
  (w.server req, { w with sent := w.sent ++ [req] })

/-! ## go-simplejson -/

/-- The data held by a `simplejson.Json`: what `encoding/json` decodes into an
`interface{}`.  An object keeps its members as an association list, looked up by key. -/
inductive Json where
  | null : Json
  | bool (b : Bool) : Json
  | number (literal : String) : Json
  | string (s : String) : Json
  | array (xs : List Json) : Json
  | object (members : List (String × Json)) : Json

/-- Go `Json.Map`: the members when the data is an object. -/
def Json.Map : Json → Option (List (String × Json))
  | .object m => some m
  | _ => none

/-- Go `Json.CheckGet`: the member under `key`, and whether there is one. -/
def Json.CheckGet (j : Json) (key : String) : Option Json :=
  match j.Map with
  | some m => m.lookup key
  | none => none

/-- Go `Json.Get`: the member under `key`, or a `Json` holding `nil`. -/
def Json.Get (j : Json) (key : String) : Json :=
  match j.Map with
  | some m =>
    match m.lookup key with
    | some val => val
    | none => .null
  | none => .null

/-- Go `Json.String`: the string held, or `""` and an error. -/
def Json.String : Json → String × Option String
  | .string s => (s, none)
  | _ => ("", some "type assertion to string failed")

/-! ## viddler_api.go -/

/-- How a call ends: it returns, or the process ends in `log.Fatal` or in a panic. -/
inductive Outcome (α : Type) where
  | ret (a : α) : Outcome α
  | fatal (msg : String) : Outcome α
  | panic (msg : String) : Outcome α

structure Client where
  ApiKey : String
  SessionId : String
  BaseDomain : String

def NewClient (apiKey : String) : Client :=
  { ApiKey := apiKey, SessionId := "", BaseDomain := "http://api.viddler.com" }

def Client.mapToUrlValues (c : Client) (paramsMap : List (String × String)) : Values :=
  let values : Values := []
  let values := Values.Add values "key" c.ApiKey
  let values := if c.SessionId ≠ "" then Values.Add values "sessionid" c.SessionId else values
  paramsMap.foldl (fun values kv => Values.Add values kv.1 kv.2) values

def Client.generateBaseUrl (c : Client) (method : String) : String :=
  let baseUrl := c.BaseDomain ++ "/api/v2/"
  let baseUrl := baseUrl ++ method
  let baseUrl := baseUrl ++ ".json?"
  baseUrl

/-- The method `handleResponse`.  Its named result `err` is `nil` on entry, and it is `err`,
not the argument `responseError`, that the first test reads. -/
def Client.handleResponse (_c : Client) (NewJson : String → Option Json)
    (res : Response) (_responseError : Option String) : Outcome (Json × Option String) :=
  let err : Option String := none
  match err with
  | some e => .fatal e
  | none =>
    match res.Body with
    | .error e => .fatal e
    | .ok body =>
      match NewJson body with
      | none => .fatal "error parsing json"
      | some json =>
        match json.CheckGet "error" with
        | some errorObj =>
          let errorString := ((errorObj.Get "description").String).1
          .ret (json, some errorString)
        | none => .ret (json, none)

/-- The method `Get`.  `*res` on a `nil` response is a run-time panic. -/
def Client.Get (c : Client) (NewJson : String → Option Json) (w : World)
    (method : String) (paramsMap : List (String × String)) :
    Outcome (Json × Option String) × Client × World :=
  let params := c.mapToUrlValues paramsMap
  let fullUrl := c.generateBaseUrl method
  let fullUrl := fullUrl ++ Values.Encode params
  let (r, w) := http_Get w fullUrl
  match r.res with
  | none => (.panic "invalid memory address or nil pointer dereference", c, w)
  | some res => (c.handleResponse NewJson res r.err, c, w)

/-- The method `Post`. -/
def Client.Post (c : Client) (NewJson : String → Option Json) (w : World)
    (method : String) (paramsMap : List (String × String)) :
    Outcome (Json × Option String) × Client × World :=
  let urlValues := c.mapToUrlValues paramsMap
  let fullUrl := c.generateBaseUrl method
  let (r, w) := http_PostForm w fullUrl urlValues
  match r.res with
  | none => (.panic "invalid memory address or nil pointer dereference", c, w)
  | some res => (c.handleResponse NewJson res r.err, c, w)

/-- The method `Authenticate`. -/
def Client.Authenticate (c : Client) (NewJson : String → Option Json) (w : World)
    (username : String) (password : String) : Outcome Bool × Client × World :=
  let c := { c with SessionId := "" }
  let params := [("username", username), ("password", password)]
  match c.Get NewJson w "viddler.users.auth" params with
  | (.ret (response, err), c, w) =>
    let c := if err = none then
        { c with SessionId := (((response.Get "auth").Get "sessionid").String).1 }
      else c
    (.ret (decide (c.SessionId ≠ "")), c, w)
  | (.fatal msg, c, w) => (.fatal msg, c, w)
  | (.panic msg, c, w) => (.panic msg, c, w)

/-! ## Sample data: the bodies served by the test-suite -/

def echoBody : String := "\x7b\"echo_response\":\x7b\"message\":\"hello there\"\x7d\x7d"

def echoDoc : Json := .object [("echo_response", .object [("message", .string "hello there")])]

def errorBody : String :=
  "\x7b\"error\":\x7b\"code\":\"4\",\"description\":\"missing required parameter\",\"details\":\"message\"\x7d\x7d"

def errorDoc : Json :=
  .object [("error", .object [("code", .string "4"),
    ("description", .string "missing required parameter"), ("details", .string "message")])]

def authBody : String := "\x7b\"auth\":\x7b\"sessionid\":\"thesessionid\"\x7d\x7d"

def authDoc : Json := .object [("auth", .object [("sessionid", .string "thesessionid")])]

def nestedBody : String := "\x7b\"data\":\x7b\"error\":\"inner\"\x7d\x7d"

def nestedDoc : Json := .object [("data", .object [("error", .string "inner")])]

/-- A decoder that knows the bodies above and takes every other body as malformed. -/
def sampleNewJson (body : String) : Option Json :=
  if body = echoBody then some echoDoc
  else if body = errorBody then some errorDoc
  else if body = authBody then some authDoc
  else if body = nestedBody then some nestedDoc
  else none

/-- A server that answers every request with the same body. -/
def constServer (body : String) : Request → HttpResult :=
  fun _ => { res := some { Body := .ok body }, err := none }

/-- The client of the test-suite, with a session id already set. -/
def sampleClient : Client :=
  { ApiKey := "my-api-key", SessionId := "a-session-id", BaseDomain := "http://127.0.0.1:8080" }

/-- The document is an object and `key` is one of its top-level member names. -/
def hasTopLevelKey : Json → String → Bool
  | .object m, key => decide (key ∈ m.map Prod.fst)
  | _, _ => false

/-- The world in which the server answers `body` to everything and nothing was sent yet. -/
def sampleWorld (body : String) : World := { server := constServer body, sent := [] }

/-! ## Auxiliary definitions for the statements -/

/-- The values a parameter map holds under `key`, in iteration order. -/
def paramsAt (paramsMap : List (String × String)) (key : String) : List String :=
  (paramsMap.filter (fun kv => kv.1 = key)).map Prod.snd

/-- The loop of `mapToUrlValues`. -/
def addAll (values : Values) (paramsMap : List (String × String)) : Values :=
  paramsMap.foldl (fun values kv => Values.Add values kv.1 kv.2) values

/-- The text `t` occurs in `s`. -/
def Occurs (t s : String) : Prop := ∃ pre post, s = pre ++ t ++ post

/-! ## Sanity checks on concrete inputs -/

theorem QueryEscape_hello : QueryEscape "hello there" = "hello+there" := by decide

theorem QueryEscape_reserved : QueryEscape "a&b=c/d~é" = "a%26b%3Dc%2Fd~%C3%A9" := by decide

theorem Get_echo_url :
    (sampleClient.Get sampleNewJson (sampleWorld echoBody) "viddler.api.echo"
        [("message", "hello there")]).2.2.sent.map Request.URL
      = ["http://127.0.0.1:8080/api/v2/viddler.api.echo.json?key=my-api-key&message=hello+there&sessionid=a-session-id"] := by
  decide

theorem Get_echo_result :
    (sampleClient.Get sampleNewJson (sampleWorld echoBody) "viddler.api.echo"
        [("message", "hello there")]).1 = .ret (echoDoc, none)
    ∧ ((echoDoc.Get "echo_response").Get "message").String = ("hello there", none) :=
  ⟨rfl, rfl⟩

theorem Get_error_result :
    (sampleClient.Get sampleNewJson (sampleWorld errorBody) "viddler.api.echo" []).1
      = .ret (errorDoc, some "missing required parameter")
    ∧ ((errorDoc.Get "error").Get "code").String = ("4", none)
    ∧ ((errorDoc.Get "error").Get "details").String = ("message", none) :=
  ⟨rfl, rfl, rfl⟩

theorem Post_body :
    ((sampleClient.Post sampleNewJson (sampleWorld echoBody) "viddler.users.setSettings"
        [("name", "bob")]).2.2.sent.map Request.Body)
      = ["key=my-api-key&name=bob&sessionid=a-session-id"] := by
  decide

theorem Get_nil_response :
    (sampleClient.Get sampleNewJson
        { server := fun _ => { res := none, err := some "connection refused" }, sent := [] }
        "viddler.api.echo" []).1
      = .panic "invalid memory address or nil pointer dereference" :=
  rfl

theorem Get_malformed_body :
    (sampleClient.Get sampleNewJson (sampleWorld "<html>") "viddler.api.echo" []).1
      = .fatal "error parsing json" :=
  rfl

theorem Authenticate_test :
    (((NewClient "my-api-key").Authenticate sampleNewJson (sampleWorld authBody)
        "auser" "apassword").1 = .ret true)
    ∧ ((NewClient "my-api-key").Authenticate sampleNewJson (sampleWorld authBody)
        "auser" "apassword").2.1.SessionId = "thesessionid"
    ∧ ((NewClient "my-api-key").Authenticate sampleNewJson (sampleWorld authBody)
        "auser" "apassword").2.2.sent.map Request.URL
      = ["http://api.viddler.com/api/v2/viddler.users.auth.json?key=my-api-key&password=apassword&username=auser"] :=
  ⟨rfl, rfl, by decide⟩

theorem Encode_sorted :
    Values.Encode ((NewClient "my-api-key").mapToUrlValues [("message", "hello there"), ("a", "1")])
      = "a=1&key=my-api-key&message=hello+there" := by decide

/-! ## Lemmas on `url.Values` -/

theorem strLE_total (a b : String) : strLE a b ∨ strLE b a := by
  unfold strLE; exact le_total _ _

theorem strLE_trans {a b c : String} (h₁ : strLE a b) (h₂ : strLE b c) : strLE a c := by
  unfold strLE at *; exact le_trans h₁ h₂

theorem strLE_antisymm {a b : String} (h₁ : strLE a b) (h₂ : strLE b a) : a = b := by
  unfold strLE at *
  have h := le_antisymm h₁ h₂
  exact String.ext h

theorem sortKeys_eq_of_perm {l₁ l₂ : List String} (h : l₁.Perm l₂) :
    List.insertionSort strLE l₁ = List.insertionSort strLE l₂ := by
  haveI : IsTotal String strLE := ⟨strLE_total⟩
  haveI : IsTrans String strLE := ⟨fun _ _ _ => strLE_trans⟩
  haveI : IsAntisymm String strLE := ⟨fun _ _ => strLE_antisymm⟩
  apply List.eq_of_perm_of_sorted (r := strLE)
  · exact ((List.perm_insertionSort strLE l₁).trans h).trans (List.perm_insertionSort strLE l₂).symm
  · exact List.sorted_insertionSort strLE l₁
  · exact List.sorted_insertionSort strLE l₂

theorem slice_Add (v : Values) (k x key : String) :
    Values.slice (Values.Add v k x) key
      = if k = key then Values.slice v k ++ [x] else Values.slice v key := by
  induction v with
  | nil =>
    by_cases h : k = key <;> simp [Values.Add, Values.slice, h]
  | cons e rest ih =>
    obtain ⟨k0, vs⟩ := e
    by_cases h0 : k0 = k
    · subst h0
      by_cases h : k0 = key <;> simp [Values.Add, Values.slice, h]
    · by_cases h : k = key
      · subst h
        simp [Values.Add, Values.slice, h0, ih]
      · by_cases h1 : k0 = key
        · subst h1
          simp [Values.Add, Values.slice, h0, h]
        · simp [Values.Add, Values.slice, h0, h, h1, ih]

theorem mem_keys_Add (v : Values) (k x a : String) :
    a ∈ Values.keys (Values.Add v k x) ↔ a ∈ Values.keys v ∨ a = k := by
  induction v with
  | nil => simp [Values.Add, Values.keys]
  | cons e rest ih =>
    obtain ⟨k0, vs⟩ := e
    by_cases h0 : k0 = k
    · subst h0
      simp only [Values.Add, Values.keys, if_true, List.map_cons, List.mem_cons]
      tauto
    · simp only [Values.keys] at ih
      simp [Values.Add, Values.keys, h0, ih, or_assoc]

theorem nodup_keys_Add (v : Values) (k x : String) (h : (Values.keys v).Nodup) :
    (Values.keys (Values.Add v k x)).Nodup := by
  induction v with
  | nil => simp [Values.Add, Values.keys]
  | cons e rest ih =>
    obtain ⟨k0, vs⟩ := e
    by_cases h0 : k0 = k
    · subst h0
      simpa [Values.Add, Values.keys] using h
    · have hm := mem_keys_Add rest k x k0
      simp only [Values.keys, List.map_cons, List.nodup_cons] at h ih hm ⊢
      simp only [Values.Add, h0, if_false, List.map_cons, List.nodup_cons]
      refine ⟨?_, ih h.2⟩
      rw [hm]
      rintro (h1 | h1)
      · exact h.1 h1
      · exact h0 h1

theorem mem_keys_of_mem_slice (v : Values) (k x : String) (h : x ∈ Values.slice v k) :
    k ∈ Values.keys v := by
  induction v with
  | nil => simp [Values.slice] at h
  | cons e rest ih =>
    obtain ⟨k0, vs⟩ := e
    by_cases h0 : k0 = k
    · simp [Values.keys, h0]
    · simp only [Values.slice, h0, if_false] at h
      have := ih h
      simp only [Values.keys] at this
      simp [Values.keys, this]

theorem slice_addAll (P : List (String × String)) (v : Values) (key : String) :
    Values.slice (addAll v P) key = Values.slice v key ++ paramsAt P key := by
  induction P generalizing v with
  | nil => simp [addAll, paramsAt]
  | cons e rest ih =>
    obtain ⟨k, x⟩ := e
    have := ih (Values.Add v k x)
    simp only [addAll, List.foldl_cons] at this ⊢
    rw [this, slice_Add]
    by_cases h : k = key
    · subst h; simp [paramsAt]
    · simp [paramsAt, h]

theorem mem_keys_addAll (P : List (String × String)) (v : Values) (a : String) :
    a ∈ Values.keys (addAll v P) ↔ a ∈ Values.keys v ∨ a ∈ P.map Prod.fst := by
  induction P generalizing v with
  | nil => simp [addAll]
  | cons e rest ih =>
    obtain ⟨k, x⟩ := e
    have := ih (Values.Add v k x)
    simp only [addAll, List.foldl_cons] at this ⊢
    rw [this, mem_keys_Add]
    simp only [List.map_cons, List.mem_cons]
    tauto

theorem nodup_keys_addAll (P : List (String × String)) (v : Values)
    (h : (Values.keys v).Nodup) : (Values.keys (addAll v P)).Nodup := by
  induction P generalizing v with
  | nil => simpa [addAll] using h
  | cons e rest ih =>
    have := ih (Values.Add v e.1 e.2) (nodup_keys_Add v e.1 e.2 h)
    simpa [addAll] using this

theorem paramsAt_perm {P Q : List (String × String)} (h : P.Perm Q)
    (nd : (P.map Prod.fst).Nodup) (key : String) : paramsAt P key = paramsAt Q key := by
  induction h with
  | nil => rfl
  | cons e _ ih =>
    simp only [List.map_cons, List.nodup_cons] at nd
    have := ih nd.2
    simp only [paramsAt] at this ⊢
    by_cases he : e.1 = key <;> simp [List.filter_cons, he, this]
  | swap e₁ e₂ l =>
    simp only [List.map_cons, List.nodup_cons, List.mem_cons, not_or] at nd
    simp only [paramsAt]
    by_cases h1 : e₁.1 = key
    · by_cases h2 : e₂.1 = key
      · exact absurd (h2.trans h1.symm) nd.1.1
      · simp [List.filter_cons, h1, h2]
    · by_cases h2 : e₂.1 = key <;> simp [List.filter_cons, h1, h2]
  | trans h₁ _ ih₁ ih₂ =>
    exact (ih₁ nd).trans (ih₂ ((h₁.map Prod.fst).nodup_iff.mp nd))

theorem Encode_congr (v v2 : Values) (hk : (Values.keys v).Perm (Values.keys v2))
    (hs : ∀ key, Values.slice v key = Values.slice v2 key) :
    Values.Encode v = Values.Encode v2 := by
  have hw : writeKey v = writeKey v2 := by
    funext buf k
    simp [writeKey, hs k]
  simp only [Values.Encode, hw, sortKeys_eq_of_perm hk]

theorem Occurs.append_right {t s : String} (h : Occurs t s) (u : String) : Occurs t (s ++ u) := by
  obtain ⟨pre, post, rfl⟩ := h
  exact ⟨pre, post ++ u, by simp [String.append_assoc]⟩

theorem writePair_extends (ke buf x : String) : ∃ s, writePair ke buf x = buf ++ s := by
  unfold writePair
  by_cases h : 0 < buf.length
  · exact ⟨"&" ++ ke ++ "=" ++ QueryEscape x, by simp [h, String.append_assoc]⟩
  · exact ⟨ke ++ "=" ++ QueryEscape x, by simp [h, String.append_assoc]⟩

theorem writePair_occurs (ke buf x : String) :
    Occurs (ke ++ "=" ++ QueryEscape x) (writePair ke buf x) := by
  unfold writePair
  by_cases h : 0 < buf.length
  · exact ⟨buf ++ "&", "", by simp [h, String.append_assoc]⟩
  · exact ⟨buf, "", by simp [h, String.append_assoc]⟩

theorem foldl_extends {α : Type} (f : String → α → String)
    (hf : ∀ buf a, ∃ s, f buf a = buf ++ s) (l : List α) (buf : String) :
    ∃ s, l.foldl f buf = buf ++ s := by
  induction l generalizing buf with
  | nil => exact ⟨"", by simp⟩
  | cons a rest ih =>
    obtain ⟨s₁, h₁⟩ := hf buf a
    obtain ⟨s₂, h₂⟩ := ih (f buf a)
    refine ⟨s₁ ++ s₂, ?_⟩
    rw [List.foldl_cons, h₂, h₁, String.append_assoc]

theorem foldl_occurs {α : Type} (f : String → α → String)
    (hf : ∀ buf a, ∃ s, f buf a = buf ++ s) (t : String) (a : α)
    (ha : ∀ buf, Occurs t (f buf a)) (l : List α) (hl : a ∈ l) (buf : String) :
    Occurs t (l.foldl f buf) := by
  induction l generalizing buf with
  | nil => simp at hl
  | cons b rest ih =>
    simp only [List.foldl_cons]
    rcases List.mem_cons.mp hl with h | h
    · subst h
      obtain ⟨s, hs⟩ := foldl_extends f hf rest (f buf a)
      rw [hs]
      exact (ha buf).append_right s
    · exact ih h (f buf b)

theorem writeKey_extends (v : Values) (buf k : String) : ∃ s, writeKey v buf k = buf ++ s :=
  foldl_extends _ (writePair_extends (QueryEscape k)) _ buf

theorem Encode_occurs (v : Values) (k x : String) (h : x ∈ Values.slice v k) :
    Occurs (QueryEscape k ++ "=" ++ QueryEscape x) (Values.Encode v) := by
  have hk : k ∈ List.insertionSort strLE (Values.keys v) :=
    (List.perm_insertionSort strLE _).mem_iff.mpr (mem_keys_of_mem_slice v k x h)
  refine foldl_occurs (writeKey v) (writeKey_extends v) _ k ?_ _ hk ""
  intro buf
  exact foldl_occurs _ (writePair_extends (QueryEscape k)) _ x
    (fun b => writePair_occurs (QueryEscape k) b x) _ h buf

theorem slice_mapToUrlValues (c : Client) (P : List (String × String)) (key : String) :
    Values.slice (c.mapToUrlValues P) key
      = (if key = "key" then [c.ApiKey] else [])
        ++ (if key = "sessionid" ∧ c.SessionId ≠ "" then [c.SessionId] else [])
        ++ paramsAt P key := by
  have h := slice_addAll P
    (if c.SessionId ≠ "" then Values.Add (Values.Add [] "key" c.ApiKey) "sessionid" c.SessionId
      else Values.Add [] "key" c.ApiKey) key
  simp only [addAll] at h
  simp only [Client.mapToUrlValues]
  rw [h]
  congr 1
  by_cases hs : c.SessionId = ""
  · by_cases hk : key = "key"
    · subst hk; simp [hs, Values.Add, Values.slice]
    · have hk2 : ¬ "key" = key := fun e => hk e.symm
      simp [hs, Values.Add, Values.slice, hk, hk2]
  · by_cases hk : key = "key"
    · subst hk; simp [hs, Values.Add, Values.slice]
    · have hk2 : ¬ "key" = key := fun e => hk e.symm
      by_cases hk3 : key = "sessionid"
      · subst hk3; simp [hs, Values.Add, Values.slice]
      · have hk4 : ¬ "sessionid" = key := fun e => hk3 e.symm
        simp [hs, Values.Add, Values.slice, hk, hk2, hk3, hk4]

theorem mem_paramsAt {P : List (String × String)} {k x : String} :
    x ∈ paramsAt P k ↔ (k, x) ∈ P := by
  simp only [paramsAt, List.mem_map, List.mem_filter, decide_eq_true_eq]
  constructor
  · rintro ⟨⟨k2, x2⟩, ⟨hm, hk⟩, hx⟩
    simp only at hk hx
    subst hk; subst hx; exact hm
  · intro h
    exact ⟨(k, x), ⟨h, rfl⟩, rfl⟩

theorem mem_keys_mapToUrlValues (c : Client) (P : List (String × String)) (a : String) :
    a ∈ Values.keys (c.mapToUrlValues P)
      ↔ a = "key" ∨ (a = "sessionid" ∧ c.SessionId ≠ "") ∨ a ∈ P.map Prod.fst := by
  have h := mem_keys_addAll P
    (if c.SessionId ≠ "" then Values.Add (Values.Add [] "key" c.ApiKey) "sessionid" c.SessionId
      else Values.Add [] "key" c.ApiKey) a
  simp only [addAll] at h
  simp only [Client.mapToUrlValues]
  rw [h]
  by_cases hs : c.SessionId = ""
  · simp [hs, Values.Add, Values.keys]
  · simp only [ne_eq, hs, not_false_eq_true, if_true, mem_keys_Add, and_true]
    simp [Values.keys, or_assoc]

theorem nodup_keys_mapToUrlValues (c : Client) (P : List (String × String)) :
    (Values.keys (c.mapToUrlValues P)).Nodup := by
  have h := nodup_keys_addAll P
    (if c.SessionId ≠ "" then Values.Add (Values.Add [] "key" c.ApiKey) "sessionid" c.SessionId
      else Values.Add [] "key" c.ApiKey)
  simp only [addAll] at h
  apply h
  by_cases hs : c.SessionId = ""
  · simp [hs, Values.Add, Values.keys]
  · simp only [ne_eq, hs, not_false_eq_true, if_true]
    exact nodup_keys_Add _ _ _ (nodup_keys_Add _ _ _ (by simp [Values.keys]))

theorem Encode_mapToUrlValues_perm (c : Client) {P Q : List (String × String)}
    (h : P.Perm Q) (nd : (P.map Prod.fst).Nodup) :
    Values.Encode (c.mapToUrlValues P) = Values.Encode (c.mapToUrlValues Q) := by
  apply Encode_congr
  · rw [List.perm_ext_iff_of_nodup (nodup_keys_mapToUrlValues c P)
      (nodup_keys_mapToUrlValues c Q)]
    intro a
    rw [mem_keys_mapToUrlValues, mem_keys_mapToUrlValues, (h.map Prod.fst).mem_iff]
  · intro key
    rw [slice_mapToUrlValues, slice_mapToUrlValues, paramsAt_perm h nd]

theorem Get_sent (c : Client) (NewJson : String → Option Json) (w : World) (method : String)
    (P : List (String × String)) :
    (c.Get NewJson w method P).2.2
      = { w with sent := w.sent ++
            [⟨"GET", c.generateBaseUrl method ++ Values.Encode (c.mapToUrlValues P), "", ""⟩] } := by
  simp only [Client.Get, http_Get]
  split <;> rfl

theorem Get_client (c : Client) (NewJson : String → Option Json) (w : World) (method : String)
    (P : List (String × String)) : (c.Get NewJson w method P).2.1 = c := by
  simp only [Client.Get, http_Get]
  split <;> rfl

theorem Get_out (c : Client) (NewJson : String → Option Json) (w : World) (method : String)
    (P : List (String × String)) (res : Response)
    (h : (w.server ⟨"GET", c.generateBaseUrl method ++ Values.Encode (c.mapToUrlValues P),
      "", ""⟩).res = some res) :
    (c.Get NewJson w method P).1
      = c.handleResponse NewJson res (w.server ⟨"GET", c.generateBaseUrl method ++
          Values.Encode (c.mapToUrlValues P), "", ""⟩).err := by
  simp only [Client.Get, http_Get, h]

theorem Post_sent (c : Client) (NewJson : String → Option Json) (w : World) (method : String)
    (P : List (String × String)) :
    (c.Post NewJson w method P).2.2
      = { w with sent := w.sent ++
            [⟨"POST", c.generateBaseUrl method, "application/x-www-form-urlencoded",
              Values.Encode (c.mapToUrlValues P)⟩] } := by
  simp only [Client.Post, http_PostForm]
  split <;> rfl

theorem Post_out (c : Client) (NewJson : String → Option Json) (w : World) (method : String)
    (P : List (String × String)) (res : Response)
    (h : (w.server ⟨"POST", c.generateBaseUrl method, "application/x-www-form-urlencoded",
      Values.Encode (c.mapToUrlValues P)⟩).res = some res) :
    (c.Post NewJson w method P).1
      = c.handleResponse NewJson res (w.server ⟨"POST", c.generateBaseUrl method,
          "application/x-www-form-urlencoded", Values.Encode (c.mapToUrlValues P)⟩).err := by
  simp only [Client.Post, http_PostForm, h]

theorem lookup_isSome_iff (m : List (String × Json)) (key : String) :
    (m.lookup key).isSome ↔ key ∈ m.map Prod.fst := by
  induction m with
  | nil => simp
  | cons e rest ih =>
    obtain ⟨k, j⟩ := e
    by_cases h : key = k
    · subst h; simp [List.lookup]
    · have hb : (key == k) = false := by simpa using h
      simp [List.lookup, hb, h, ih]

theorem CheckGet_isSome_eq (j : Json) (key : String) :
    (j.CheckGet key).isSome = hasTopLevelKey j key := by
  cases j with
  | object m =>
    simp only [Json.CheckGet, Json.Map, hasTopLevelKey]
    rw [Bool.eq_iff_iff, lookup_isSome_iff]
    simp
  | _ => simp [Json.CheckGet, Json.Map, hasTopLevelKey]

theorem Get_of_CheckGet {j e : Json} {key : String} (h : j.CheckGet key = some e) :
    j.Get key = e := by
  cases j with
  | object m =>
    simp only [Json.CheckGet, Json.Map] at h
    simp [Json.Get, Json.Map, h]
  | _ => simp [Json.CheckGet, Json.Map] at h

theorem handleResponse_ok (c : Client) (NewJson : String → Option Json) (res : Response)
    (responseError : Option String) (body : String) (doc : Json)
    (hb : res.Body = .ok body) (hp : NewJson body = some doc) :
    c.handleResponse NewJson res responseError
      = match doc.CheckGet "error" with
        | some errorObj => .ret (doc, some ((errorObj.Get "description").String).1)
        | none => .ret (doc, none) := by
  simp only [Client.handleResponse, hb, hp]

theorem generateBaseUrl_eq (c : Client) (method : String) :
    c.generateBaseUrl method = c.BaseDomain ++ "/api/v2/" ++ method ++ ".json" ++ "?" := by
  have h : (".json?" : String) = ".json" ++ "?" := by decide
  simp only [Client.generateBaseUrl, h, String.append_assoc]

theorem Get_fst (c : Client) (NewJson : String → Option Json) (w : World) (method : String)
    (P : List (String × String)) :
    (c.Get NewJson w method P).1
      = match (w.server ⟨"GET", c.generateBaseUrl method ++ Values.Encode (c.mapToUrlValues P),
          "", ""⟩).res with
        | none => .panic "invalid memory address or nil pointer dereference"
        | some res => c.handleResponse NewJson res (w.server ⟨"GET", c.generateBaseUrl method ++
            Values.Encode (c.mapToUrlValues P), "", ""⟩).err := by
  simp only [Client.Get, http_Get]
  split <;> simp_all

theorem Authenticate_eq (c : Client) (NewJson : String → Option Json) (w : World)
    (username password : String) :
    c.Authenticate NewJson w username password
      = match ({ c with SessionId := "" } : Client).Get NewJson w "viddler.users.auth"
            [("username", username), ("password", password)] with
        | (.ret (response, err), c, w) =>
          (.ret (decide ((if err = none then
              { c with SessionId := (((response.Get "auth").Get "sessionid").String).1 }
            else c).SessionId ≠ "")),
           (if err = none then
              { c with SessionId := (((response.Get "auth").Get "sessionid").String).1 }
            else c), w)
        | (.fatal msg, c, w) => (.fatal msg, c, w)
        | (.panic msg, c, w) => (.panic msg, c, w) := by
  rfl

theorem authUrl_eq (c : Client) (username password : String) :
    ({ c with SessionId := "" } : Client).generateBaseUrl "viddler.users.auth"
        ++ Values.Encode (({ c with SessionId := "" } : Client).mapToUrlValues
            [("username", username), ("password", password)])
      = c.BaseDomain ++ "/api/v2/viddler.users.auth.json?"
        ++ Values.Encode [("key", [c.ApiKey]), ("username", [username]), ("password", [password])] := by
  have h : ("/api/v2/" : String) ++ ("viddler.users.auth" ++ ".json?")
      = "/api/v2/viddler.users.auth.json?" := by decide
  have h1 : ¬ ("key" : String) = "username" := by decide
  have h2 : ¬ ("key" : String) = "password" := by decide
  have h3 : ¬ ("username" : String) = "password" := by decide
  simp [Client.generateBaseUrl, Client.mapToUrlValues, Values.Add, String.append_assoc, h, h1, h2, h3]

theorem Get_eq (c : Client) (NewJson : String → Option Json) (w : World) (method : String)
    (P : List (String × String)) :
    c.Get NewJson w method P
      = ((c.Get NewJson w method P).1, c, { w with sent := w.sent ++
          [⟨"GET", c.generateBaseUrl method ++ Values.Encode (c.mapToUrlValues P), "", ""⟩] }) :=
  Prod.ext rfl (Prod.ext (Get_client c NewJson w method P) (Get_sent c NewJson w method P))

theorem length_append_pos (a b : String) (h : 0 < a.length) : 0 < (a ++ b).length := by
  rw [String.length_append]; omega

theorem writePair_empty (ke x : String) : writePair ke "" x = ke ++ "=" ++ QueryEscape x := by
  have h : ¬ 0 < ("" : String).length := by decide
  simp only [writePair, h, if_false, String.empty_append]

theorem writePair_nonempty (ke buf x : String) (h : 0 < buf.length) :
    writePair ke buf x = buf ++ "&" ++ ke ++ "=" ++ QueryEscape x := by
  simp only [writePair, h, if_true]

theorem Encode_auth (apiKey username password : String) :
    Values.Encode [("key", [apiKey]), ("username", [username]), ("password", [password])]
      = "key=" ++ QueryEscape apiKey ++ "&password=" ++ QueryEscape password
        ++ "&username=" ++ QueryEscape username := by
  have hsort : List.insertionSort strLE ["key", "username", "password"]
      = ["key", "password", "username"] := by decide
  have h1 : ¬ ("key" : String) = "username" := by decide
  have h2 : ¬ ("key" : String) = "password" := by decide
  have h3 : ¬ ("username" : String) = "password" := by decide
  have e1 : QueryEscape "key" = "key" := by decide
  have e2 : QueryEscape "password" = "password" := by decide
  have e3 : QueryEscape "username" = "username" := by decide
  have a1 : ("key" : String) ++ "=" = "key=" := by decide
  have a2 : ("&" : String) ++ ("password" ++ "=") = "&password=" := by decide
  have a3 : ("&" : String) ++ ("username" ++ "=") = "&username=" := by decide
  have l0 : 0 < ("key" : String).length := by decide
  have l1 : 0 < ("key" ++ "=" ++ QueryEscape apiKey).length :=
    length_append_pos _ _ (length_append_pos _ _ l0)
  have l2 : 0 < ("key" ++ "=" ++ QueryEscape apiKey ++ "&" ++ "password" ++ "="
      ++ QueryEscape password).length :=
    length_append_pos _ _ (length_append_pos _ _ (length_append_pos _ _
      (length_append_pos _ _ l1)))
  simp only [Values.Encode, Values.keys, List.map_cons, List.map_nil, hsort, List.foldl_cons,
    List.foldl_nil, writeKey, Values.slice, h1, h2, h3, if_true, if_false, e1, e2, e3,
    writePair_empty, writePair_nonempty _ _ _ l1, writePair_nonempty _ _ _ l2]
  simp only [String.append_assoc, a1, a2, a3]

theorem authUrl_explicit (c : Client) (username password : String) :
    ({ c with SessionId := "" } : Client).generateBaseUrl "viddler.users.auth"
        ++ Values.Encode (({ c with SessionId := "" } : Client).mapToUrlValues
            [("username", username), ("password", password)])
      = c.BaseDomain ++ "/api/v2/viddler.users.auth.json?key=" ++ QueryEscape c.ApiKey
        ++ "&password=" ++ QueryEscape password ++ "&username=" ++ QueryEscape username := by
  rw [authUrl_eq, Encode_auth]
  have h : ("/api/v2/viddler.users.auth.json?" : String) ++ "key="
      = "/api/v2/viddler.users.auth.json?key=" := by decide
  simp only [String.append_assoc]
  rw [← String.append_assoc "/api/v2/viddler.users.auth.json?" "key=", h]

theorem Authenticate_of_ret (c : Client) (NewJson : String → Option Json) (w : World)
    (username password : String) (response : Json) (err : Option String)
    (h : (({ c with SessionId := "" } : Client).Get NewJson w "viddler.users.auth"
      [("username", username), ("password", password)]).1 = .ret (response, err)) :
    c.Authenticate NewJson w username password
      = (.ret (decide ((if err = none then
            ({ c with SessionId := (((response.Get "auth").Get "sessionid").String).1 } : Client)
          else { c with SessionId := "" }).SessionId ≠ "")),
         (if err = none then
            ({ c with SessionId := (((response.Get "auth").Get "sessionid").String).1 } : Client)
          else { c with SessionId := "" }),
         { w with sent := w.sent ++
            [⟨"GET", c.BaseDomain ++ "/api/v2/viddler.users.auth.json?key="
              ++ QueryEscape c.ApiKey ++ "&password=" ++ QueryEscape password
              ++ "&username=" ++ QueryEscape username, "", ""⟩] }) := by
  rw [Authenticate_eq, Get_eq, h, authUrl_explicit]

/-! ## The claims -/

/-- C1: with a non-empty session id, the values built by `mapToUrlValues` hold exactly the
pair `key`=ApiKey, the pair `sessionid`=SessionId and every entry of the caller's map (also
entries named `key` or `sessionid`); every pair held occurs, escaped, in the encoding; `Get`
sends that encoding as the query string and `Post` sends the same encoding as the form body. -/
theorem C1_request_carries_key_session_and_params (c : Client) (P : List (String × String))
    (hS : c.SessionId ≠ "") :
    (∀ k v, v ∈ Values.slice (c.mapToUrlValues P) k ↔
        (k = "key" ∧ v = c.ApiKey) ∨ (k = "sessionid" ∧ v = c.SessionId) ∨ (k, v) ∈ P)
    ∧ (∀ k v, v ∈ Values.slice (c.mapToUrlValues P) k →
        Occurs (QueryEscape k ++ "=" ++ QueryEscape v) (Values.Encode (c.mapToUrlValues P)))
    ∧ (∀ NewJson w method, (c.Get NewJson w method P).2.2.sent = w.sent ++
        [⟨"GET", c.generateBaseUrl method ++ Values.Encode (c.mapToUrlValues P), "", ""⟩])
    ∧ (∀ NewJson w method, (c.Post NewJson w method P).2.2.sent = w.sent ++
        [⟨"POST", c.generateBaseUrl method, "application/x-www-form-urlencoded",
          Values.Encode (c.mapToUrlValues P)⟩]) := by
  refine ⟨?_, ?_, ?_, ?_⟩
  · intro k v
    rw [slice_mapToUrlValues]
    simp only [List.mem_append, mem_paramsAt, hS, ne_eq, not_false_eq_true, and_true]
    by_cases h1 : k = "key" <;> by_cases h2 : k = "sessionid" <;> simp [h1, h2]
  · intro k v h
    exact Encode_occurs _ k v h
  · intro NewJson w method
    rw [Get_sent]
  · intro NewJson w method
    rw [Post_sent]

theorem C1_witness :
    sampleClient.SessionId ≠ "" ∧
    ((∀ k v, v ∈ Values.slice (sampleClient.mapToUrlValues
          [("message", "hello there"), ("sessionid", "mine"), ("key", "other")]) k ↔
        (k = "key" ∧ v = sampleClient.ApiKey) ∨ (k = "sessionid" ∧ v = sampleClient.SessionId)
          ∨ (k, v) ∈ [("message", "hello there"), ("sessionid", "mine"), ("key", "other")])
    ∧ (∀ k v, v ∈ Values.slice (sampleClient.mapToUrlValues
          [("message", "hello there"), ("sessionid", "mine"), ("key", "other")]) k →
        Occurs (QueryEscape k ++ "=" ++ QueryEscape v) (Values.Encode (sampleClient.mapToUrlValues
          [("message", "hello there"), ("sessionid", "mine"), ("key", "other")])))
    ∧ (∀ NewJson w method, (sampleClient.Get NewJson w method
          [("message", "hello there"), ("sessionid", "mine"), ("key", "other")]).2.2.sent = w.sent ++
        [⟨"GET", sampleClient.generateBaseUrl method ++ Values.Encode (sampleClient.mapToUrlValues
          [("message", "hello there"), ("sessionid", "mine"), ("key", "other")]), "", ""⟩])
    ∧ (∀ NewJson w method, (sampleClient.Post NewJson w method
          [("message", "hello there"), ("sessionid", "mine"), ("key", "other")]).2.2.sent = w.sent ++
        [⟨"POST", sampleClient.generateBaseUrl method, "application/x-www-form-urlencoded",
          Values.Encode (sampleClient.mapToUrlValues
            [("message", "hello there"), ("sessionid", "mine"), ("key", "other")])⟩])) :=
  ⟨by decide, C1_request_carries_key_session_and_params sampleClient
    [("message", "hello there"), ("sessionid", "mine"), ("key", "other")] (by decide)⟩

/-- C2, as stated, fails: a client with an empty session id and a caller map that has an
entry named `sessionid` produce values with a `sessionid` field. -/
theorem C2_counterexample :
    (NewClient "my-api-key").SessionId = ""
    ∧ "sessionid" ∈ Values.keys ((NewClient "my-api-key").mapToUrlValues [("sessionid", "mine")])
    ∧ Values.Encode ((NewClient "my-api-key").mapToUrlValues [("sessionid", "mine")])
        = "key=my-api-key&sessionid=mine" := by
  decide

/-- C2, amended: with an empty session id the client adds no `sessionid` of its own: the
values have a field named `sessionid` exactly when the caller's map has an entry of that
name, the field then holds the caller's value only, and these values are what `Get` and
`Post` encode. -/
theorem C2_no_sessionid_unless_caller_supplies (c : Client) (P : List (String × String))
    (hS : c.SessionId = "") :
    ("sessionid" ∈ Values.keys (c.mapToUrlValues P) ↔ "sessionid" ∈ P.map Prod.fst)
    ∧ ("sessionid" ∉ P.map Prod.fst → "sessionid" ∉ Values.keys (c.mapToUrlValues P))
    ∧ (∀ v, v ∈ Values.slice (c.mapToUrlValues P) "sessionid" ↔ ("sessionid", v) ∈ P)
    ∧ (∀ NewJson w method, (c.Get NewJson w method P).2.2.sent = w.sent ++
        [⟨"GET", c.generateBaseUrl method ++ Values.Encode (c.mapToUrlValues P), "", ""⟩])
    ∧ (∀ NewJson w method, (c.Post NewJson w method P).2.2.sent = w.sent ++
        [⟨"POST", c.generateBaseUrl method, "application/x-www-form-urlencoded",
          Values.Encode (c.mapToUrlValues P)⟩]) := by
  have hk : "sessionid" ∈ Values.keys (c.mapToUrlValues P) ↔ "sessionid" ∈ P.map Prod.fst := by
    rw [mem_keys_mapToUrlValues]
    have h0 : ¬ ("sessionid" : String) = "key" := by decide
    simp [hS, h0]
  refine ⟨hk, fun h => fun h2 => h (hk.mp h2), ?_, ?_, ?_⟩
  · intro v
    rw [slice_mapToUrlValues]
    have h0 : ¬ ("sessionid" : String) = "key" := by decide
    simp [hS, h0, mem_paramsAt]
  · intro NewJson w method
    rw [Get_sent]
  · intro NewJson w method
    rw [Post_sent]

theorem C2_witness :
    (NewClient "my-api-key").SessionId = "" ∧
    (("sessionid" ∈ Values.keys ((NewClient "my-api-key").mapToUrlValues
          [("message", "hello there")]) ↔
        "sessionid" ∈ [("message", "hello there")].map Prod.fst)
    ∧ ("sessionid" ∉ [("message", "hello there")].map Prod.fst →
        "sessionid" ∉ Values.keys ((NewClient "my-api-key").mapToUrlValues
          [("message", "hello there")]))
    ∧ (∀ v, v ∈ Values.slice ((NewClient "my-api-key").mapToUrlValues
          [("message", "hello there")]) "sessionid" ↔
        ("sessionid", v) ∈ [("message", "hello there")])
    ∧ (∀ NewJson w method, ((NewClient "my-api-key").Get NewJson w method
          [("message", "hello there")]).2.2.sent = w.sent ++
        [⟨"GET", (NewClient "my-api-key").generateBaseUrl method ++
          Values.Encode ((NewClient "my-api-key").mapToUrlValues [("message", "hello there")]),
          "", ""⟩])
    ∧ (∀ NewJson w method, ((NewClient "my-api-key").Post NewJson w method
          [("message", "hello there")]).2.2.sent = w.sent ++
        [⟨"POST", (NewClient "my-api-key").generateBaseUrl method,
          "application/x-www-form-urlencoded",
          Values.Encode ((NewClient "my-api-key").mapToUrlValues
            [("message", "hello there")])⟩])) :=
  ⟨by decide, C2_no_sessionid_unless_caller_supplies (NewClient "my-api-key")
    [("message", "hello there")] (by decide)⟩

/-- C3: when the body is read, decodes to a document, and the document has a top-level
`error` member, `handleResponse` returns the decoded document itself together with a
non-nil error whose message is what `Get("description").String()` yields on that member:
the string at `error.description` when there is one.  `Get` and `Post` return the same pair
whenever the server answers their request with that response. -/
theorem C3_api_error_is_returned_with_document (c : Client) (NewJson : String → Option Json)
    (res : Response) (responseError : Option String) (body : String) (doc : Json)
    (hb : res.Body = .ok body) (hp : NewJson body = some doc)
    (he : hasTopLevelKey doc "error" = true) :
    ∃ msg : String,
      c.handleResponse NewJson res responseError = .ret (doc, some msg)
      ∧ msg = (((doc.Get "error").Get "description").String).1
      ∧ (∀ s, (doc.Get "error").Get "description" = .string s → msg = s)
      ∧ (∀ (w : World) (method : String) (P : List (String × String)),
          (w.server ⟨"GET", c.generateBaseUrl method ++ Values.Encode (c.mapToUrlValues P),
            "", ""⟩).res = some res →
          (c.Get NewJson w method P).1 = .ret (doc, some msg))
      ∧ (∀ (w : World) (method : String) (P : List (String × String)),
          (w.server ⟨"POST", c.generateBaseUrl method, "application/x-www-form-urlencoded",
            Values.Encode (c.mapToUrlValues P)⟩).res = some res →
          (c.Post NewJson w method P).1 = .ret (doc, some msg)) := by
  have hsome : (doc.CheckGet "error").isSome = true := by
    rw [CheckGet_isSome_eq]; exact he
  obtain ⟨errorObj, hc⟩ := Option.isSome_iff_exists.mp hsome
  have hget := Get_of_CheckGet hc
  have hr : ∀ e, c.handleResponse NewJson res e
      = .ret (doc, some (((doc.Get "error").Get "description").String).1) := by
    intro e
    rw [handleResponse_ok c NewJson res e body doc hb hp, hc, hget]
  refine ⟨_, hr responseError, rfl, ?_, ?_, ?_⟩
  · intro s hs
    rw [hs]; rfl
  · intro w method P hG
    rw [Get_out c NewJson w method P res hG, hr]
  · intro w method P hPo
    rw [Post_out c NewJson w method P res hPo, hr]

theorem C3_witness :
    (({ Body := .ok errorBody } : Response).Body = .ok errorBody
      ∧ sampleNewJson errorBody = some errorDoc
      ∧ hasTopLevelKey errorDoc "error" = true)
    ∧ ∃ msg : String,
      sampleClient.handleResponse sampleNewJson { Body := .ok errorBody } none
          = .ret (errorDoc, some msg)
      ∧ msg = (((errorDoc.Get "error").Get "description").String).1
      ∧ (∀ s, (errorDoc.Get "error").Get "description" = .string s → msg = s)
      ∧ (∀ (w : World) (method : String) (P : List (String × String)),
          (w.server ⟨"GET", sampleClient.generateBaseUrl method
            ++ Values.Encode (sampleClient.mapToUrlValues P), "", ""⟩).res
            = some { Body := .ok errorBody } →
          (sampleClient.Get sampleNewJson w method P).1 = .ret (errorDoc, some msg))
      ∧ (∀ (w : World) (method : String) (P : List (String × String)),
          (w.server ⟨"POST", sampleClient.generateBaseUrl method,
            "application/x-www-form-urlencoded",
            Values.Encode (sampleClient.mapToUrlValues P)⟩).res
            = some { Body := .ok errorBody } →
          (sampleClient.Post sampleNewJson w method P).1 = .ret (errorDoc, some msg)) :=
  ⟨⟨rfl, rfl, by decide⟩,
    C3_api_error_is_returned_with_document sampleClient sampleNewJson
      { Body := .ok errorBody } none errorBody errorDoc rfl rfl (by decide)⟩

/-- C4: when the body is read and decodes to a document, `handleResponse` returns that
document, and the error returned with it is nil exactly when the document has no top-level
`error` member (so also for a document that is not an object, or that has `error` only
further down); `Get` and `Post` return the same pair whenever the server answers their
request with that response. -/
theorem C4_error_iff_top_level_error_key (c : Client) (NewJson : String → Option Json)
    (res : Response) (responseError : Option String) (body : String) (doc : Json)
    (hb : res.Body = .ok body) (hp : NewJson body = some doc) :
    ∃ err : Option String,
      c.handleResponse NewJson res responseError = .ret (doc, err)
      ∧ (err = none ↔ hasTopLevelKey doc "error" = false)
      ∧ (err ≠ none ↔ hasTopLevelKey doc "error" = true)
      ∧ (∀ (w : World) (method : String) (P : List (String × String)),
          (w.server ⟨"GET", c.generateBaseUrl method ++ Values.Encode (c.mapToUrlValues P),
            "", ""⟩).res = some res →
          (c.Get NewJson w method P).1 = .ret (doc, err))
      ∧ (∀ (w : World) (method : String) (P : List (String × String)),
          (w.server ⟨"POST", c.generateBaseUrl method, "application/x-www-form-urlencoded",
            Values.Encode (c.mapToUrlValues P)⟩).res = some res →
          (c.Post NewJson w method P).1 = .ret (doc, err)) := by
  have hk := CheckGet_isSome_eq doc "error"
  cases hc : doc.CheckGet "error" with
  | none =>
    have hr : ∀ e, c.handleResponse NewJson res e = .ret (doc, none) := by
      intro e
      rw [handleResponse_ok c NewJson res e body doc hb hp, hc]
    rw [hc] at hk
    simp only [Option.isSome_none] at hk
    refine ⟨none, hr responseError, ?_, ?_, ?_, ?_⟩
    · simp [← hk]
    · simp [← hk]
    · intro w method P hG
      rw [Get_out c NewJson w method P res hG, hr]
    · intro w method P hPo
      rw [Post_out c NewJson w method P res hPo, hr]
  | some errorObj =>
    have hr : ∀ e, c.handleResponse NewJson res e
        = .ret (doc, some ((errorObj.Get "description").String).1) := by
      intro e
      rw [handleResponse_ok c NewJson res e body doc hb hp, hc]
    rw [hc] at hk
    simp only [Option.isSome_some] at hk
    refine ⟨some ((errorObj.Get "description").String).1, hr responseError, ?_, ?_, ?_, ?_⟩
    · simp [← hk]
    · simp [← hk]
    · intro w method P hG
      rw [Get_out c NewJson w method P res hG, hr]
    · intro w method P hPo
      rw [Post_out c NewJson w method P res hPo, hr]

theorem C4_witness :
    (({ Body := .ok nestedBody } : Response).Body = .ok nestedBody
      ∧ sampleNewJson nestedBody = some nestedDoc)
    ∧ ∃ err : Option String,
      sampleClient.handleResponse sampleNewJson { Body := .ok nestedBody } none
          = .ret (nestedDoc, err)
      ∧ (err = none ↔ hasTopLevelKey nestedDoc "error" = false)
      ∧ (err ≠ none ↔ hasTopLevelKey nestedDoc "error" = true)
      ∧ (∀ (w : World) (method : String) (P : List (String × String)),
          (w.server ⟨"GET", sampleClient.generateBaseUrl method
            ++ Values.Encode (sampleClient.mapToUrlValues P), "", ""⟩).res
            = some { Body := .ok nestedBody } →
          (sampleClient.Get sampleNewJson w method P).1 = .ret (nestedDoc, err))
      ∧ (∀ (w : World) (method : String) (P : List (String × String)),
          (w.server ⟨"POST", sampleClient.generateBaseUrl method,
            "application/x-www-form-urlencoded",
            Values.Encode (sampleClient.mapToUrlValues P)⟩).res
            = some { Body := .ok nestedBody } →
          (sampleClient.Post sampleNewJson w method P).1 = .ret (nestedDoc, err)) :=
  ⟨⟨rfl, rfl⟩,
    C4_error_iff_top_level_error_key sampleClient sampleNewJson
      { Body := .ok nestedBody } none nestedBody nestedDoc rfl rfl⟩

/-- C5: whatever the session id before the call, when the auth endpoint answers with a
body that decodes to a document without a top-level `error` member whose `auth.sessionid`
is a non-empty string `s`, `Authenticate` returns `true` and leaves the client with
`SessionId = s` (its other fields as before), having sent one GET without a session id. -/
theorem C5_authenticate_stores_session_id (c : Client) (NewJson : String → Option Json)
    (w : World) (username password : String) (res : Response) (body : String) (doc : Json)
    (s : String)
    (hs : (w.server ⟨"GET", c.BaseDomain ++ "/api/v2/viddler.users.auth.json?key="
        ++ QueryEscape c.ApiKey ++ "&password=" ++ QueryEscape password
        ++ "&username=" ++ QueryEscape username, "", ""⟩).res = some res)
    (hb : res.Body = .ok body) (hp : NewJson body = some doc)
    (hne : hasTopLevelKey doc "error" = false)
    (hsid : (doc.Get "auth").Get "sessionid" = .string s) (hs0 : s ≠ "") :
    (c.Authenticate NewJson w username password).1 = .ret true
    ∧ (c.Authenticate NewJson w username password).2.1
        = { ApiKey := c.ApiKey, SessionId := s, BaseDomain := c.BaseDomain }
    ∧ (c.Authenticate NewJson w username password).2.2.sent = w.sent ++
        [⟨"GET", c.BaseDomain ++ "/api/v2/viddler.users.auth.json?key="
          ++ QueryEscape c.ApiKey ++ "&password=" ++ QueryEscape password
          ++ "&username=" ++ QueryEscape username, "", ""⟩] := by
  have hc : doc.CheckGet "error" = none := by
    have := CheckGet_isSome_eq doc "error"
    rw [hne] at this
    exact Option.not_isSome_iff_eq_none.mp (by simp [this])
  have hG : (({ c with SessionId := "" } : Client).Get NewJson w "viddler.users.auth"
      [("username", username), ("password", password)]).1 = .ret (doc, none) := by
    rw [Get_fst, authUrl_explicit]
    simp only [hs]
    rw [handleResponse_ok _ NewJson res _ body doc hb hp, hc]
  rw [Authenticate_of_ret c NewJson w username password doc none hG]
  simp [hsid, Json.String, hs0]

theorem C5_witness :
    (((sampleWorld authBody).server ⟨"GET", sampleClient.BaseDomain
        ++ "/api/v2/viddler.users.auth.json?key=" ++ QueryEscape sampleClient.ApiKey
        ++ "&password=" ++ QueryEscape "apassword" ++ "&username=" ++ QueryEscape "auser",
        "", ""⟩).res = some { Body := .ok authBody }
      ∧ ({ Body := .ok authBody } : Response).Body = .ok authBody
      ∧ sampleNewJson authBody = some authDoc
      ∧ hasTopLevelKey authDoc "error" = false
      ∧ (authDoc.Get "auth").Get "sessionid" = .string "thesessionid"
      ∧ "thesessionid" ≠ "")
    ∧ (sampleClient.Authenticate sampleNewJson (sampleWorld authBody) "auser" "apassword").1
        = .ret true
    ∧ (sampleClient.Authenticate sampleNewJson (sampleWorld authBody) "auser" "apassword").2.1
        = { ApiKey := sampleClient.ApiKey, SessionId := "thesessionid",
            BaseDomain := sampleClient.BaseDomain }
    ∧ (sampleClient.Authenticate sampleNewJson (sampleWorld authBody) "auser" "apassword").2.2.sent
        = (sampleWorld authBody).sent ++
          [⟨"GET", sampleClient.BaseDomain ++ "/api/v2/viddler.users.auth.json?key="
            ++ QueryEscape sampleClient.ApiKey ++ "&password=" ++ QueryEscape "apassword"
            ++ "&username=" ++ QueryEscape "auser", "", ""⟩] :=
  ⟨⟨rfl, rfl, rfl, by decide, rfl, by decide⟩,
    C5_authenticate_stores_session_id sampleClient sampleNewJson (sampleWorld authBody)
      "auser" "apassword" { Body := .ok authBody } authBody authDoc "thesessionid"
      rfl rfl rfl (by decide) rfl (by decide)⟩

/-- C6: whenever `Authenticate` returns, the boolean it returns says whether the client's
`SessionId` is now non-empty; and whatever the session id before the call, when the auth
endpoint answers with a body that decodes to a document that has a top-level `error` member,
or in which `auth.sessionid` is not a string (missing included), `Authenticate` returns
`false` and leaves the client with an empty `SessionId`. -/
theorem C6_failed_authenticate_clears_session (c : Client) (NewJson : String → Option Json)
    (w : World) (username password : String) :
    (∀ b : Bool, (c.Authenticate NewJson w username password).1 = .ret b →
        (b = true ↔ (c.Authenticate NewJson w username password).2.1.SessionId ≠ ""))
    ∧ (∀ (res : Response) (body : String) (doc : Json),
        (w.server ⟨"GET", c.BaseDomain ++ "/api/v2/viddler.users.auth.json?key="
          ++ QueryEscape c.ApiKey ++ "&password=" ++ QueryEscape password
          ++ "&username=" ++ QueryEscape username, "", ""⟩).res = some res →
        res.Body = .ok body → NewJson body = some doc →
        (hasTopLevelKey doc "error" = true
          ∨ ∀ s, (doc.Get "auth").Get "sessionid" ≠ .string s) →
        (c.Authenticate NewJson w username password).1 = .ret false
        ∧ (c.Authenticate NewJson w username password).2.1
            = { ApiKey := c.ApiKey, SessionId := "", BaseDomain := c.BaseDomain }) := by
  constructor
  · intro b hb
    rw [Authenticate_eq] at hb ⊢
    rcases hG : ({ c with SessionId := "" } : Client).Get NewJson w "viddler.users.auth"
        [("username", username), ("password", password)] with ⟨out, c1, w1⟩
    rw [hG] at hb
    cases out with
    | ret a =>
      obtain ⟨response, err⟩ := a
      simp only [Outcome.ret.injEq] at hb
      simp only [← hb, decide_eq_true_eq]
    | fatal msg => simp at hb
    | panic msg => simp at hb
  · intro res body doc hs hb hp hcase
    have hfst := Get_fst ({ c with SessionId := "" } : Client) NewJson w "viddler.users.auth"
      [("username", username), ("password", password)]
    rw [authUrl_explicit] at hfst
    simp only [hs] at hfst
    rw [handleResponse_ok _ NewJson res _ body doc hb hp] at hfst
    have hk := CheckGet_isSome_eq doc "error"
    cases hc : doc.CheckGet "error" with
    | some errorObj =>
      rw [hc] at hfst
      rw [Authenticate_of_ret c NewJson w username password doc _ hfst]
      simp
    | none =>
      rw [hc] at hfst hk
      rw [Authenticate_of_ret c NewJson w username password doc _ hfst]
      have hns : ∀ s, (doc.Get "auth").Get "sessionid" ≠ .string s := by
        rcases hcase with h | h
        · rw [h] at hk; simp at hk
        · exact h
      have hstr : (((doc.Get "auth").Get "sessionid").String).1 = "" := by
        cases hj : (doc.Get "auth").Get "sessionid" with
        | string s => exact absurd hj (hns s)
        | _ => rfl
      simp [hstr]

theorem C6_witness :
    (((sampleWorld errorBody).server ⟨"GET", sampleClient.BaseDomain
        ++ "/api/v2/viddler.users.auth.json?key=" ++ QueryEscape sampleClient.ApiKey
        ++ "&password=" ++ QueryEscape "apassword" ++ "&username=" ++ QueryEscape "auser",
        "", ""⟩).res = some { Body := .ok errorBody }
      ∧ ({ Body := .ok errorBody } : Response).Body = .ok errorBody
      ∧ sampleNewJson errorBody = some errorDoc
      ∧ (hasTopLevelKey errorDoc "error" = true
          ∨ ∀ s, (errorDoc.Get "auth").Get "sessionid" ≠ .string s))
    ∧ sampleClient.SessionId ≠ ""
    ∧ (sampleClient.Authenticate sampleNewJson (sampleWorld errorBody) "auser" "apassword").1
        = .ret false
    ∧ (sampleClient.Authenticate sampleNewJson (sampleWorld errorBody) "auser" "apassword").2.1
        = { ApiKey := sampleClient.ApiKey, SessionId := "",
            BaseDomain := sampleClient.BaseDomain } :=
  ⟨⟨rfl, rfl, rfl, Or.inl (by decide)⟩, by decide,
    (C6_failed_authenticate_clears_session sampleClient sampleNewJson (sampleWorld errorBody)
      "auser" "apassword").2 { Body := .ok errorBody } errorBody errorDoc
      rfl rfl rfl (Or.inl (by decide))⟩

/-- C7: the URL `Get` requests is `BaseDomain`, `/api/v2/`, the method string as given,
`.json`, the separator `?`, and the encoding of `mapToUrlValues` of the parameters; this
holds for every method string, none is rejected or rewritten. -/
theorem C7_get_url (c : Client) (NewJson : String → Option Json) (w : World)
    (method : String) (P : List (String × String)) :
    (c.Get NewJson w method P).2.2.sent = w.sent ++
      [⟨"GET", c.BaseDomain ++ "/api/v2/" ++ method ++ ".json" ++ "?"
        ++ Values.Encode (c.mapToUrlValues P), "", ""⟩] := by
  rw [Get_sent, generateBaseUrl_eq]

/-- C8, as stated, fails: the URL `Post` sends to is not `BaseDomain`, `/api/v2/`, the
method and `.json`; it has a `?` after `.json`. -/
theorem C8_counterexample :
    ((NewClient "my-api-key").Post sampleNewJson (sampleWorld echoBody)
        "viddler.users.setSettings" [("name", "bob")]).2.2.sent.map Request.URL
      = ["http://api.viddler.com/api/v2/viddler.users.setSettings.json?"]
    ∧ ((NewClient "my-api-key").Post sampleNewJson (sampleWorld echoBody)
        "viddler.users.setSettings" [("name", "bob")]).2.2.sent.map Request.URL
      ≠ [(NewClient "my-api-key").BaseDomain ++ "/api/v2/" ++ "viddler.users.setSettings"
          ++ ".json"] := by
  decide

/-- C8, amended: the URL `Post` sends to is `BaseDomain`, `/api/v2/`, the method string,
`.json` and a closing `?` with nothing after it, whatever the parameters; the encoding of
`mapToUrlValues` of the parameters is the form body of the request. -/
theorem C8_post_url_and_body (c : Client) (NewJson : String → Option Json) (w : World)
    (method : String) (P : List (String × String)) :
    (c.Post NewJson w method P).2.2.sent = w.sent ++
      [⟨"POST", c.BaseDomain ++ "/api/v2/" ++ method ++ ".json" ++ "?",
        "application/x-www-form-urlencoded", Values.Encode (c.mapToUrlValues P)⟩] := by
  rw [Post_sent, generateBaseUrl_eq]

/-- C9: against a fixed server, a second `Get` with the same method and the same parameter
map, its entries visited in any order, sends the same request as the first and returns the
same document and the same error; `Get` leaves the client and the server as they were; the
encoding is the same for every iteration order of the map and for every client with the
same `ApiKey` and `SessionId`. -/
theorem C9_get_is_repeatable (c : Client) (NewJson : String → Option Json) (w : World)
    (method : String) (P Q : List (String × String))
    (hperm : P.Perm Q) (hnd : (P.map Prod.fst).Nodup) :
    Values.Encode (c.mapToUrlValues P) = Values.Encode (c.mapToUrlValues Q)
    ∧ (∀ c2 : Client, c2.ApiKey = c.ApiKey → c2.SessionId = c.SessionId →
        Values.Encode (c2.mapToUrlValues Q) = Values.Encode (c.mapToUrlValues P))
    ∧ (c.Get NewJson w method P).2.1 = c
    ∧ (c.Get NewJson w method P).2.2.server = w.server
    ∧ ((c.Get NewJson w method P).2.1.Get NewJson (c.Get NewJson w method P).2.2 method Q).1
        = (c.Get NewJson w method P).1
    ∧ ((c.Get NewJson w method P).2.1.Get NewJson (c.Get NewJson w method P).2.2 method Q).2.2.sent
        = w.sent ++
          [⟨"GET", c.generateBaseUrl method ++ Values.Encode (c.mapToUrlValues P), "", ""⟩,
           ⟨"GET", c.generateBaseUrl method ++ Values.Encode (c.mapToUrlValues P), "", ""⟩] := by
  have hE := Encode_mapToUrlValues_perm c hperm hnd
  refine ⟨hE, ?_, Get_client _ _ _ _ _, ?_, ?_, ?_⟩
  · intro c2 h1 h2
    have : c2.mapToUrlValues Q = c.mapToUrlValues Q := by
      simp only [Client.mapToUrlValues, h1, h2]
    rw [this, hE]
  · rw [Get_sent]
  · rw [Get_client, Get_fst c NewJson _ method Q, Get_fst c NewJson w method P, Get_sent, hE]
  · rw [Get_client, Get_sent c NewJson _ method Q, Get_sent, hE]
    simp

theorem C9_witness :
    ([("message", "hello there"), ("a", "1")].Perm [("a", "1"), ("message", "hello there")]
      ∧ ([("message", "hello there"), ("a", "1")].map Prod.fst).Nodup)
    ∧ Values.Encode (sampleClient.mapToUrlValues [("message", "hello there"), ("a", "1")])
        = Values.Encode (sampleClient.mapToUrlValues [("a", "1"), ("message", "hello there")])
    ∧ (∀ c2 : Client, c2.ApiKey = sampleClient.ApiKey → c2.SessionId = sampleClient.SessionId →
        Values.Encode (c2.mapToUrlValues [("a", "1"), ("message", "hello there")])
          = Values.Encode (sampleClient.mapToUrlValues [("message", "hello there"), ("a", "1")]))
    ∧ (sampleClient.Get sampleNewJson (sampleWorld echoBody) "viddler.api.echo"
        [("message", "hello there"), ("a", "1")]).2.1 = sampleClient
    ∧ (sampleClient.Get sampleNewJson (sampleWorld echoBody) "viddler.api.echo"
        [("message", "hello there"), ("a", "1")]).2.2.server = (sampleWorld echoBody).server
    ∧ ((sampleClient.Get sampleNewJson (sampleWorld echoBody) "viddler.api.echo"
          [("message", "hello there"), ("a", "1")]).2.1.Get sampleNewJson
        (sampleClient.Get sampleNewJson (sampleWorld echoBody) "viddler.api.echo"
          [("message", "hello there"), ("a", "1")]).2.2 "viddler.api.echo"
        [("a", "1"), ("message", "hello there")]).1
        = (sampleClient.Get sampleNewJson (sampleWorld echoBody) "viddler.api.echo"
            [("message", "hello there"), ("a", "1")]).1
    ∧ ((sampleClient.Get sampleNewJson (sampleWorld echoBody) "viddler.api.echo"
          [("message", "hello there"), ("a", "1")]).2.1.Get sampleNewJson
        (sampleClient.Get sampleNewJson (sampleWorld echoBody) "viddler.api.echo"
          [("message", "hello there"), ("a", "1")]).2.2 "viddler.api.echo"
        [("a", "1"), ("message", "hello there")]).2.2.sent
        = (sampleWorld echoBody).sent ++
          [⟨"GET", sampleClient.generateBaseUrl "viddler.api.echo" ++ Values.Encode
              (sampleClient.mapToUrlValues [("message", "hello there"), ("a", "1")]), "", ""⟩,
           ⟨"GET", sampleClient.generateBaseUrl "viddler.api.echo" ++ Values.Encode
              (sampleClient.mapToUrlValues [("message", "hello there"), ("a", "1")]), "", ""⟩] :=
  ⟨⟨List.Perm.swap _ _ _, by decide⟩,
    C9_get_is_repeatable sampleClient sampleNewJson (sampleWorld echoBody) "viddler.api.echo"
      [("message", "hello there"), ("a", "1")] [("a", "1"), ("message", "hello there")]
      (List.Perm.swap _ _ _) (by decide)⟩

/-- C10 does not hold of the code: `handleResponse` never reads its `responseError`
argument, so its result is the same with and without a transport error; given a transport
error and a response whose body is the echo document, it reads and decodes the body and
returns the document with a nil error, and given one with an unreadable body it ends in the
fatal branch of the read, with the read error. -/
theorem C10_handleResponse_ignores_responseError :
    (∀ (c : Client) (NewJson : String → Option Json) (res : Response) (e : Option String),
        c.handleResponse NewJson res e = c.handleResponse NewJson res none)
    ∧ sampleClient.handleResponse sampleNewJson { Body := .ok echoBody }
        (some "dial tcp 127.0.0.1:8080: connect: connection refused") = .ret (echoDoc, none)
    ∧ sampleClient.handleResponse sampleNewJson
        { Body := .error "http: read on closed response body" }
        (some "Get http://127.0.0.1:8080/: stopped after 10 redirects")
        = .fatal "http: read on closed response body" :=
  ⟨fun _ _ _ _ => rfl, rfl, rfl⟩

end viddler_api
